import Mathlib

/-!
Verification development for the competitor-intelligence dashboard
(`app.py`): a shallow embedding of the spreadsheet gateway
(`ensure_sheets`, `read_sheet`, `upsert_sheet`), the Drive listing, the
page controllers and the application shell, together with theorems about
the behaviours the design document promises.

The external stores (Google Sheets via gspread, Google Drive) are not part
of the repository; their behaviour is modelled from the design document:
a worksheet is a named grid of cell values whose first row holds the
column headers, `ws.update` starting at the first cell overwrites the
table content, and `get_all_records` reads the grid back as header-keyed
records.  Python dictionaries are modelled as association lists with the
insertion order of `app.py`'s literals.
-/

set_option autoImplicit false

namespace CompetitorIntel

/-- A cell / dictionary value: a string, a boolean (`True` in the
competitor form), or pandas `NaN` (introduced by `pd.concat` column
alignment). -/
inductive Value where
  | s (v : String)
  | b (v : Bool)
  | nan
  deriving DecidableEq, Repr

/-- A Python dictionary (one record), as an association list in insertion
order. -/
abbrev Rec := List (String × Value)

/-- Python `r.get(h, "")`: the value stored under key `h`, defaulting to
the empty string. -/
def dictGet (r : Rec) (k : String) : Value :=
  match r.find? (fun p => p.1 == k) with
  | some p => p.2
  | none => .s ""

/-- One worksheet (tab) of the spreadsheet store: a title, the nominal
grid size used at creation, and the cell content (row-major; a freshly
created worksheet has no content). -/
structure Worksheet where
  title : String
  nrows : Nat
  ncols : Nat
  cells : List (List Value)
  deriving DecidableEq, Repr

/-- The spreadsheet store behind one sheet id: its ordered worksheet
list. -/
structure Spreadsheet where
  worksheets : List Worksheet
  deriving DecidableEq, Repr

/-- `[w.title for w in sh.worksheets()]`. -/
def Spreadsheet.titles (sh : Spreadsheet) : List String :=
  sh.worksheets.map Worksheet.title

/-- Modelled from the spec: `sh.add_worksheet(title=..., rows=..., cols=...)`
appends a fresh, empty worksheet of the given nominal size. -/
def Spreadsheet.add_worksheet (sh : Spreadsheet) (title : String)
    (rows cols : Nat) : Spreadsheet :=
  ⟨sh.worksheets ++ [⟨title, rows, cols, []⟩]⟩

/-- The five table names `ensure_sheets` requires. -/
def neededSheets : List String :=
  ["competitors", "files", "financial_runs", "financial_metrics", "news"]

/-- The `for name in needed` loop of `ensure_sheets`: `existing` is the
title list computed once before the loop. -/
def ensureLoop (existing : List String) (sh : Spreadsheet) :
    List String → Spreadsheet
  | [] => sh
  | name :: rest =>
    if name ∈ existing then ensureLoop existing sh rest
    else ensureLoop existing (sh.add_worksheet name 100 26) rest

/-- `ensure_sheets(sh)` from `app.py`. -/
def ensure_sheets (sh : Spreadsheet) : Spreadsheet :=
  ensureLoop sh.titles sh neededSheets

/-- Modelled from the spec: `sh.worksheet(name)` returns the first
worksheet with the given title, raising (here: `none`) when absent. -/
def Spreadsheet.worksheet? (sh : Spreadsheet) (name : String) :
    Option Worksheet :=
  sh.worksheets.find? (fun w => w.title == name)

/-- Replace the cell content of the first worksheet with the given title. -/
def setFirst (name : String) (data : List (List Value)) :
    List Worksheet → List Worksheet
  | [] => []
  | w :: ws =>
    if w.title == name then { w with cells := data } :: ws
    else w :: setFirst name data ws

/-- Modelled from the spec: `ws.update` starting at the first cell
overwrites the table content with the given grid (the design document
calls the write path "a full overwrite, not an append"). -/
def Spreadsheet.setCells (sh : Spreadsheet) (name : String)
    (data : List (List Value)) : Spreadsheet :=
  ⟨setFirst name data sh.worksheets⟩

/-- Pad (or cut) a cell row to the header width, blank cells reading as
empty strings. -/
def padTo (n : Nat) (xs : List Value) : List Value :=
  xs.take n ++ List.replicate (n - xs.length) (.s "")

/-- The header key a cell value denotes. -/
def keyOfValue : Value → String
  | .s v => v
  | .b true => "TRUE"
  | .b false => "FALSE"
  | .nan => ""

/-- Modelled from the spec: `ws.get_all_records()` — the first row is the
header row, every later row becomes a record keyed by the headers; an
empty table yields an empty sequence. -/
def get_all_records (cells : List (List Value)) : List Rec :=
  match cells with
  | [] => []
  | hrow :: body =>
    let headers := hrow.map keyOfValue
    body.map (fun r => headers.zip (padTo headers.length r))

/-- `read_sheet(gc, sheet_id, name)` from `app.py`; `none` models the
exception raised when the worksheet does not exist. -/
def read_sheet (sh : Spreadsheet) (name : String) : Option (List Rec) :=
  (sh.worksheet? name).map (fun w => get_all_records w.cells)

/-- `upsert_sheet(gc, sheet_id, name, rows)` from `app.py`: look the
worksheet up (raising when absent), return unchanged on an empty row
list, otherwise write a header row taken from the first record's keys
followed by one row per record, missing fields reading as `""`. -/
def upsert_sheet (sh : Spreadsheet) (name : String) (rows : List Rec) :
    Option Spreadsheet :=
  match sh.worksheet? name with
  | none => none
  | some _ =>
    match rows with
    | [] => some sh
    | r0 :: _ =>
      let headers := r0.map Prod.fst
      let data := (headers.map Value.s) ::
        rows.map (fun r => headers.map (fun h => dictGet r h))
      some (sh.setCells name data)

/-- Python `str.lower()`, character by character. -/
def pyLower (s : String) : String :=
  String.mk (s.data.map Char.toLower)

/-- Python `str.replace(old, new)` for a one-character pattern and
replacement, which is all `app.py` uses: replace every occurrence of
`old` by `new`. -/
def pyReplaceChar (s : String) (old new : Char) : String :=
  String.mk (s.data.map (fun c => if c = old then new else c))

/-- The competitor identifier of `page_competitors`:
`(name.lower().replace(" ","-") if name else "")`. -/
def derive_id (name : String) : String :=
  if name = "" then "" else pyReplaceChar (pyLower name) ' ' '-'

/-! ### UI layer -/

/-- One rendered Streamlit element, in render order.  Sidebar elements
carry an `sb` prefix; `dataframe` carries the record list displayed. -/
inductive UIEvent where
  | sbTitle (s : String)
  | sbCaption (s : String)
  | sbWrite (s : String)
  | sbRadio (label : String) (options : List String)
  | sbMarkdown (s : String)
  | header (s : String)
  | subheader (s : String)
  | dataframe (rows : List Rec)
  | infoBox (s : String)
  | write (s : String)
  | markdown (s : String)
  | formShown (key : String)
  | success (s : String)
  deriving DecidableEq, Repr

/-- Fold new column names into an ordered, duplicate-free column list
(pandas column-union order). -/
def insertCols (acc : List String) (ks : List String) : List String :=
  ks.foldl (fun a k => if k ∈ a then a else a ++ [k]) acc

/-- The column list of `pd.DataFrame(records)`: keys in first-seen
order. -/
def dfColumns (rows : List Rec) : List String :=
  rows.foldl (fun a r => insertCols a (r.map Prod.fst)) []

/-- `df.empty` for a frame built from records: true when there are no
rows or no columns. -/
def dfEmpty (rows : List Rec) : Bool :=
  rows.isEmpty || (dfColumns rows).isEmpty

/-- `pd.DataFrame({"info":["No rows yet"]})`. -/
def noRowsDf : List Rec := [[("info", Value.s "No rows yet")]]

/-- `pd.DataFrame({"info":["No data yet"]})`. -/
def noDataDf : List Rec := [[("info", Value.s "No data yet")]]

/-- A file entry of the Drive store. -/
structure DriveFile where
  id : String
  name : String
  mimeType : String
  webViewLink : String
  parents : List String
  trashed : Bool
  deriving DecidableEq, Repr

/-- Modelled from the spec: the Drive query
`'{top_folder_id}' in parents and trashed=false` returns the non-trashed
immediate children of the folder. -/
def list_children (drive : List DriveFile) (folder_id : String) :
    List DriveFile :=
  drive.filter (fun f => f.parents.contains folder_id && !f.trashed)

/-- The markdown line `page_library` writes per item. -/
def itemLine (f : DriveFile) : String :=
  "- [" ++ f.name ++ "](" ++ f.webViewLink ++ ") — " ++ f.mimeType

/-- `page_library(drive_service, top_folder_id)` from `app.py`. -/
def page_library (drive : List DriveFile) (top_folder_id : String) :
    List UIEvent :=
  if top_folder_id == "" then
    [.header "Library (Google Drive)",
     .infoBox "Set google.drive_top_folder_id in secrets and share that folder with your Service Account."]
  else
    let items := list_children drive top_folder_id
    [.header "Library (Google Drive)"] ++
      (if items.isEmpty then
        [.write "No items yet. Create a subfolder per competitor and drop files there."]
      else []) ++
      items.map (fun it => .write (itemLine it))

/-- `page_automations()` from `app.py`: static text only. -/
def page_automations : List UIEvent :=
  [.header "Automations (coming in Phase 2)",
   .write "Here you’ll later have buttons to trigger:",
   .markdown "- Financials: Discover→Download\n- Financials: Parse→Summarize\n- Biweekly News\n- Deck Builder",
   .infoBox "We’ll add an OpenAI Agent + a simple scheduler in Phase 2."]

/-- The `try: ... except Exception: pd.DataFrame()` wrapper of
`page_reports`: a failed read renders as an empty frame. -/
def reportFrame (r : Option (List Rec)) : List Rec :=
  match r with
  | none => []
  | some rows => rows

/-- `page_reports(gc, sheet_id)` from `app.py`. -/
def page_reports (sh : Spreadsheet) : List UIEvent :=
  let fm := reportFrame (read_sheet sh "financial_metrics")
  let news := reportFrame (read_sheet sh "news")
  [.header "Reports",
   .subheader "Financial metrics",
   .dataframe (if dfEmpty fm then noDataDf else fm),
   .subheader "News",
   .dataframe (if dfEmpty news then noDataDf else news)]

/-- The ten free-text fields of the Competitors form. -/
structure CompForm where
  name : String
  website : String
  ir_url : String
  news_rss : String
  linkedin_url : String
  tickers : String
  currency : String
  fiscal_notes : String
  drive_folder_id : String
  tags : String
  deriving DecidableEq, Repr

/-- The `new` dictionary `page_competitors` builds on submission. -/
def mkNewRec (f : CompForm) : Rec :=
  [("id", .s (derive_id f.name)),
   ("name", .s f.name), ("website", .s f.website), ("ir_url", .s f.ir_url),
   ("news_rss", .s f.news_rss), ("linkedin_url", .s f.linkedin_url),
   ("tickers", .s f.tickers), ("currency", .s f.currency),
   ("fiscal_calendar_notes", .s f.fiscal_notes),
   ("drive_folder_id", .s f.drive_folder_id),
   ("tags", .s f.tags), ("active(bool)", .b true),
   ("created_at", .s ""), ("updated_at", .s "")]

/-- Align one record to a column list, missing columns becoming pandas
`NaN`. -/
def alignRec (cols : List String) (r : Rec) : Rec :=
  cols.map (fun c =>
    (c, if c ∈ r.map Prod.fst then dictGet r c else Value.nan))

/-- `pd.concat([df, pd.DataFrame([new])], ignore_index=True).to_dict("records")`
when `df` is not empty, else `pd.DataFrame([new]).to_dict("records")`:
the column union keeps `df`'s columns first, and every row is aligned to
it. -/
def concatRecords (rows : List Rec) (new : Rec) : List Rec :=
  if dfEmpty rows then [new]
  else
    let cols := insertCols (dfColumns rows) (new.map Prod.fst)
    (rows ++ [new]).map (alignRec cols)

/-- `page_competitors(gc, sheet_id)` from `app.py`; `form` is `some f`
when the user submitted the Add / Edit form this run.  Returns the
rendered events and the spreadsheet store after the run; `none` models an
uncaught exception. -/
def page_competitors (sh : Spreadsheet) (form : Option CompForm) :
    Option (List UIEvent × Spreadsheet) :=
  let sh1 := ensure_sheets sh
  match read_sheet sh1 "competitors" with
  | none => none
  | some rows =>
    let baseEvs : List UIEvent :=
      [.header "Competitors", .subheader "Database",
       .dataframe (if dfEmpty rows then noRowsDf else rows),
       .subheader "Add / Edit", .formShown "comp_form"]
    match form with
    | none => some (baseEvs, sh1)
    | some f =>
      let new := mkNewRec f
      let records := concatRecords rows new
      match upsert_sheet sh1 "competitors" records with
      | none => none
      | some sh2 => some (baseEvs ++ [.success "Saved!"], sh2)

/-- The recognised secrets groups (`st.secrets`); `none` models an absent
key. -/
structure Secrets where
  timezone : Option String
  service_account_json : Option String
  sheet_id : Option String
  drive_top_folder_id : Option String
  deriving DecidableEq, Repr

/-- Python truthiness of an optional string (`if not sa_json`): false for
a missing key and for the empty string. -/
def truthy : Option String → Bool
  | none => false
  | some s => !(s == "")

/-- The sidebar elements `main` renders before constructing the Google
clients. -/
def sidebarPrefixEvs (secrets : Secrets) (now : String) : List UIEvent :=
  [.sbTitle "Competitor Intelligence",
   .sbCaption ("Local time: " ++ now),
   .sbWrite ("Timezone: " ++ secrets.timezone.getD "Europe/Berlin"),
   .sbRadio "Navigate" ["Competitors", "Library", "Automations", "Reports"]]

/-- The sidebar elements `main` renders after the page dispatch. -/
def sidebarSuffixEvs (sheet_id drive_top : String) : List UIEvent :=
  [.sbMarkdown "---",
   .sbWrite ("Google Sheet ID: " ++ (if sheet_id == "" then "unset" else sheet_id)),
   .sbWrite ("Drive folder: " ++ (if drive_top == "" then "unset" else drive_top))]

/-- `main()` from `app.py`, one script run: `now` is the formatted local
time, `choice` the radio selection, `sh` the spreadsheet store and
`drive` the Drive store.  Returns the rendered events, the store after
the run, and whether `st.stop()` halted the run; `none` models an
uncaught exception. -/
def runMain (secrets : Secrets) (now choice : String) (sh : Spreadsheet)
    (drive : List DriveFile) (form : Option CompForm) :
    Option (List UIEvent × Spreadsheet × Bool) :=
  let sidebar := sidebarPrefixEvs secrets now
  let sheet_id := secrets.sheet_id.getD ""
  let drive_top := secrets.drive_top_folder_id.getD ""
  if !(truthy secrets.service_account_json) then
    some (sidebar, sh, true)
  else
    let suffix := sidebarSuffixEvs sheet_id drive_top
    if choice == "Competitors" then
      (page_competitors sh form).map
        (fun r => (sidebar ++ r.1 ++ suffix, r.2, false))
    else if choice == "Library" then
      some (sidebar ++ page_library drive drive_top ++ suffix, sh, false)
    else if choice == "Automations" then
      some (sidebar ++ page_automations ++ suffix, sh, false)
    else
      some (sidebar ++ page_reports sh ++ suffix, sh, false)

/-! ### Supporting lemmas -/

theorem ensureLoop_worksheets (existing : List String) (sh : Spreadsheet)
    (names : List String) :
    (ensureLoop existing sh names).worksheets =
      sh.worksheets ++
        (names.filter (fun n => !decide (n ∈ existing))).map
          (fun n => ⟨n, 100, 26, []⟩) := by
  induction names generalizing sh with
  | nil => simp [ensureLoop]
  | cons n ns ih =>
    by_cases h : n ∈ existing
    · simp [ensureLoop, h, List.filter_cons, ih]
    · simp [ensureLoop, h, List.filter_cons, ih, Spreadsheet.add_worksheet]

theorem ensureLoop_id (existing : List String) (sh : Spreadsheet)
    (names : List String) (h : ∀ n ∈ names, n ∈ existing) :
    ensureLoop existing sh names = sh := by
  induction names with
  | nil => rfl
  | cons n ns ih =>
    have hn := h n (List.mem_cons_self n ns)
    simp only [ensureLoop, hn, if_pos]
    exact ih (fun m hm => h m (List.mem_cons_of_mem n hm))

theorem ensure_sheets_worksheets (sh : Spreadsheet) :
    (ensure_sheets sh).worksheets =
      sh.worksheets ++
        (neededSheets.filter (fun n => !decide (n ∈ sh.titles))).map
          (fun n => ⟨n, 100, 26, []⟩) :=
  ensureLoop_worksheets sh.titles sh neededSheets

theorem ensure_sheets_titles (sh : Spreadsheet) :
    (ensure_sheets sh).titles =
      sh.titles ++ neededSheets.filter (fun n => !decide (n ∈ sh.titles)) := by
  show (ensure_sheets sh).worksheets.map Worksheet.title = _
  rw [ensure_sheets_worksheets]
  simp only [Spreadsheet.titles, List.map_append, List.map_map]
  congr 1
  exact (List.map_congr_left (fun a _ => rfl)).trans (List.map_id _)

theorem needed_in_ensure (sh : Spreadsheet) (n : String)
    (hn : n ∈ neededSheets) :
    n ∈ (ensure_sheets sh).titles := by
  rw [ensure_sheets_titles]
  by_cases h : n ∈ sh.titles
  · exact List.mem_append_left _ h
  · refine List.mem_append_right _ ?_
    rw [List.mem_filter]
    exact ⟨hn, by simp [h]⟩

theorem setFirst_find? (name : String) (data : List (List Value))
    (ws : List Worksheet) :
    (setFirst name data ws).find? (fun w => w.title == name) =
      (ws.find? (fun w => w.title == name)).map
        (fun w => { w with cells := data }) := by
  induction ws with
  | nil => rfl
  | cons w ws ih =>
    by_cases h : w.title = name
    · simp [setFirst, List.find?, h]
    · have hb : (w.title == name) = false := beq_eq_false_iff_ne.mpr h
      simp [setFirst, List.find?, hb, ih]

theorem worksheet?_setCells (sh : Spreadsheet) (name : String)
    (data : List (List Value)) :
    (sh.setCells name data).worksheet? name =
      (sh.worksheet? name).map (fun w => { w with cells := data }) := by
  simpa [Spreadsheet.worksheet?, Spreadsheet.setCells] using
    setFirst_find? name data sh.worksheets

theorem padTo_eq (n : Nat) (xs : List Value) (h : xs.length = n) :
    padTo n xs = xs := by
  subst h
  simp [padTo]

theorem map_keyOfValue_s (hs : List String) :
    (hs.map Value.s).map keyOfValue = hs := by
  rw [List.map_map]
  exact (List.map_congr_left (fun a _ => rfl)).trans (List.map_id _)

theorem zip_self_map {α β : Type} (l : List α) (f : α → β) :
    l.zip (l.map f) = l.map (fun a => (a, f a)) := by
  induction l with
  | nil => rfl
  | cons a t ih => simp [ih]

theorem keys_map_pair (cols : List String) (val : String → Value) :
    (cols.map (fun c => (c, val c))).map Prod.fst = cols := by
  rw [List.map_map]
  exact (List.map_congr_left (fun a _ => rfl)).trans (List.map_id _)

theorem dictGet_map_pair (cols : List String) (val : String → Value)
    (k : String) (hk : k ∈ cols) :
    dictGet (cols.map (fun c => (c, val c))) k = val k := by
  induction cols with
  | nil => cases hk
  | cons c cs ih =>
    by_cases h : c = k
    · subst h
      simp [dictGet, List.find?]
    · have hk' : k ∈ cs := by
        rcases List.mem_cons.mp hk with h' | h'
        · exact absurd h'.symm h
        · exact h'
      have hb : (c == k) = false := beq_eq_false_iff_ne.mpr h
      simpa [dictGet, List.find?, hb] using ih hk'

theorem dictGet_not_mem (r : Rec) (k : String)
    (hk : ¬ k ∈ r.map Prod.fst) :
    dictGet r k = Value.s "" := by
  induction r with
  | nil => rfl
  | cons p rest ih =>
    have h1 : ¬ p.1 = k := fun h => hk (by simp [h])
    have h2 : ¬ k ∈ rest.map Prod.fst := fun h => hk (by simp [h])
    have hb : (p.1 == k) = false := beq_eq_false_iff_ne.mpr h1
    simpa [dictGet, List.find?, hb] using ih h2

theorem map_zip_self {α β : Type} (l : List α) (f : α → β) :
    (l.map f).zip l = l.map (fun a => (f a, a)) := by
  induction l with
  | nil => rfl
  | cons a t ih => simp [ih]

theorem mem_zip_map {α β : Type} (l : List α) (f : α → β) (p : β × α)
    (hp : p ∈ (l.map f).zip l) : ∃ r ∈ l, p = (f r, r) := by
  rw [map_zip_self] at hp
  obtain ⟨r, hr, h⟩ := List.mem_map.mp hp
  exact ⟨r, hr, h.symm⟩

/-- The written-then-read characterization behind the round-trip claims:
after a successful `upsert_sheet` of `r0 :: rest`, reading the table back
yields one record per written record, keyed exactly by the first record's
keys. -/
theorem upsert_then_read (sh sh' : Spreadsheet) (name : String)
    (r0 : Rec) (rest : List Rec)
    (h : upsert_sheet sh name (r0 :: rest) = some sh') :
    read_sheet sh' name =
      some ((r0 :: rest).map
        (fun r => (r0.map Prod.fst).map (fun c => (c, dictGet r c)))) := by
  rcases hw : sh.worksheet? name with _ | w
  · simp [upsert_sheet, hw] at h
  · simp only [upsert_sheet, hw] at h
    obtain rfl := Option.some.inj h
    show (Spreadsheet.worksheet? _ name).map
      (fun w => get_all_records w.cells) = _
    rw [worksheet?_setCells, hw]
    simp only [Option.map_some']
    congr 1
    show get_all_records (((r0.map Prod.fst).map Value.s) ::
        (r0 :: rest).map
          (fun r => (r0.map Prod.fst).map (fun c => dictGet r c))) = _
    simp only [get_all_records]
    rw [map_keyOfValue_s, List.map_map]
    refine List.map_congr_left (fun r _ => ?_)
    show (r0.map Prod.fst).zip
        (padTo (r0.map Prod.fst).length
          ((r0.map Prod.fst).map (fun c => dictGet r c))) = _
    rw [padTo_eq _ _ (by simp), zip_self_map]

/-! ### Claim theorems: table management -/

/-- C3. `ensure_sheets` creates each of the five required tables only when
absent (first conjunct: the worksheet list gains exactly the missing
required tables and keeps the existing tables unchanged in place),
afterwards every required table is present (second conjunct), and a second
call changes nothing, so no duplicate tables arise (third conjunct). -/
theorem ensure_sheets_idempotent (sh : Spreadsheet) :
    (ensure_sheets sh).worksheets =
      sh.worksheets ++
        (neededSheets.filter (fun n => !decide (n ∈ sh.titles))).map
          (fun n => ⟨n, 100, 26, []⟩) ∧
    neededSheets.all (fun n => decide (n ∈ (ensure_sheets sh).titles)) = true ∧
    ensure_sheets (ensure_sheets sh) = ensure_sheets sh := by
  refine ⟨ensure_sheets_worksheets sh, ?_, ?_⟩
  · exact List.all_eq_true.mpr
      (fun n hn => decide_eq_true (needed_in_ensure sh n hn))
  · exact ensureLoop_id _ _ _ (fun n hn => needed_in_ensure sh n hn)

/-- C2. `upsert_sheet` with an empty record list never writes: when the
target table exists the store is returned unmodified, and when it does
not exist the lookup raises without touching the store. -/
theorem upsert_sheet_empty_noop (sh : Spreadsheet) (name : String) :
    upsert_sheet sh name [] = (sh.worksheet? name).map (fun _ => sh) := by
  rcases h : sh.worksheet? name with _ | w <;> simp [upsert_sheet, h]

/-- C4. The competitor identifier derived from `"Acme Corp"` is
`"acme-corp"`, and the identifier derived from the empty name is the
empty string. -/
theorem derive_id_examples :
    derive_id "Acme Corp" = "acme-corp" ∧ derive_id "" = "" :=
  ⟨by decide, rfl⟩

/-! ### Claim theorems: write / read round trip -/

/-- C1, counterexample. Writing `[{a:1}, {a:2, b:3}]` to a table and
reading it back yields `[{a:1}, {a:2}]`: the field `b`, absent from the
first record but present in the second, is omitted from the read-back
record altogether — its key appears in no read-back record — rather than
read back as the empty string. -/
theorem upsert_read_late_key_omitted :
    upsert_sheet ⟨[⟨"t", 100, 26, []⟩]⟩ "t"
        [[("a", Value.s "1")], [("a", Value.s "2"), ("b", Value.s "3")]] =
      some ⟨[⟨"t", 100, 26, [[.s "a"], [.s "1"], [.s "2"]]⟩]⟩ ∧
    read_sheet ⟨[⟨"t", 100, 26, [[.s "a"], [.s "1"], [.s "2"]]⟩]⟩ "t" =
      some [[("a", Value.s "1")], [("a", Value.s "2")]] ∧
    (([[("a", Value.s "1")], [("a", Value.s "2")]] : List Rec).all
      (fun rec => !(rec.map Prod.fst).contains "b")) = true :=
  ⟨by decide, by decide, by decide⟩

/-- C1, amended. After a successful `upsert_sheet` of a non-empty record
sequence, `read_sheet` on the same table returns exactly one record per
written record; each read-back record's keys are exactly the first
written record's keys, and on every key of the first written record the
read-back value equals the written value.  (A field absent from the first
record but present in a later record is therefore omitted from the
read-back records, not read back as the empty string.) -/
theorem upsert_read_roundtrip (sh sh' : Spreadsheet) (name : String)
    (r0 : Rec) (rest : List Rec)
    (h : upsert_sheet sh name (r0 :: rest) = some sh') :
    ∃ recs, read_sheet sh' name = some recs ∧
      recs.length = (r0 :: rest).length ∧
      ∀ p ∈ recs.zip (r0 :: rest),
        p.1.map Prod.fst = r0.map Prod.fst ∧
        ∀ k ∈ r0.map Prod.fst, dictGet p.1 k = dictGet p.2 k := by
  refine ⟨_, upsert_then_read sh sh' name r0 rest h, by simp, ?_⟩
  intro p hp
  obtain ⟨r, _, rfl⟩ := mem_zip_map (r0 :: rest)
    (fun r => (r0.map Prod.fst).map (fun c => (c, dictGet r c))) p hp
  exact ⟨keys_map_pair _ _, fun k hk => dictGet_map_pair _ _ k hk⟩

/-- Witness for C1 (amended): the round trip evaluated on a concrete
one-record write. -/
theorem upsert_read_roundtrip_witness :
    upsert_sheet ⟨[⟨"t", 100, 26, []⟩]⟩ "t" [[("a", Value.s "1")]] =
      some ⟨[⟨"t", 100, 26, [[.s "a"], [.s "1"]]⟩]⟩ ∧
    (∃ recs,
      read_sheet ⟨[⟨"t", 100, 26, [[.s "a"], [.s "1"]]⟩]⟩ "t" = some recs ∧
      recs.length = ([("a", Value.s "1")] :: ([] : List Rec)).length ∧
      ∀ p ∈ recs.zip ([("a", Value.s "1")] :: ([] : List Rec)),
        p.1.map Prod.fst = ([("a", Value.s "1")] : Rec).map Prod.fst ∧
        ∀ k ∈ ([("a", Value.s "1")] : Rec).map Prod.fst,
          dictGet p.1 k = dictGet p.2 k) :=
  ⟨by decide,
   upsert_read_roundtrip ⟨[⟨"t", 100, 26, []⟩]⟩
     ⟨[⟨"t", 100, 26, [[.s "a"], [.s "1"]]⟩]⟩ "t"
     [("a", Value.s "1")] [] (by decide)⟩

/-- C7. On a non-empty record sequence `upsert_sheet` writes, to the
existing target worksheet, exactly a header row made of the FIRST
record's keys followed by one row per record (first conjunct); the
resulting worksheet content is exactly that grid, independent of the
previous cell content — a full overwrite, not an append (second
conjunct); and a key of the header missing from a later record
contributes the empty string, since `r.get(h, "")` of a missing key is
`""` (third conjunct). -/
theorem upsert_sheet_full_overwrite (sh : Spreadsheet) (name : String)
    (r0 : Rec) (rest : List Rec) (w : Worksheet)
    (hw : sh.worksheet? name = some w) :
    upsert_sheet sh name (r0 :: rest) =
      some (sh.setCells name
        (((r0.map Prod.fst).map Value.s) ::
          (r0 :: rest).map
            (fun r => (r0.map Prod.fst).map (fun c => dictGet r c)))) ∧
    (sh.setCells name
        (((r0.map Prod.fst).map Value.s) ::
          (r0 :: rest).map
            (fun r => (r0.map Prod.fst).map (fun c => dictGet r c)))).worksheet?
        name =
      some { w with cells :=
        (((r0.map Prod.fst).map Value.s) ::
          (r0 :: rest).map
            (fun r => (r0.map Prod.fst).map (fun c => dictGet r c))) } ∧
    ∀ (r : Rec) (k : String), ¬ k ∈ r.map Prod.fst →
      dictGet r k = Value.s "" := by
  refine ⟨by simp [upsert_sheet, hw], ?_, fun r k hk => dictGet_not_mem r k hk⟩
  rw [worksheet?_setCells, hw]
  rfl

/-- Witness for C7: the overwrite evaluated on a table holding stale
content. -/
theorem upsert_sheet_full_overwrite_witness :
    (⟨[⟨"t", 2, 2, [[Value.s "old"]]⟩]⟩ : Spreadsheet).worksheet? "t" =
      some ⟨"t", 2, 2, [[Value.s "old"]]⟩ ∧
    (upsert_sheet ⟨[⟨"t", 2, 2, [[Value.s "old"]]⟩]⟩ "t"
        ([("a", Value.s "1")] :: ([] : List Rec)) =
      some ((⟨[⟨"t", 2, 2, [[Value.s "old"]]⟩]⟩ : Spreadsheet).setCells "t"
        ((([("a", Value.s "1")] : Rec).map Prod.fst).map Value.s ::
          ([("a", Value.s "1")] :: ([] : List Rec)).map
            (fun r => (([("a", Value.s "1")] : Rec).map Prod.fst).map
              (fun c => dictGet r c)))) ∧
    ((⟨[⟨"t", 2, 2, [[Value.s "old"]]⟩]⟩ : Spreadsheet).setCells "t"
        ((([("a", Value.s "1")] : Rec).map Prod.fst).map Value.s ::
          ([("a", Value.s "1")] :: ([] : List Rec)).map
            (fun r => (([("a", Value.s "1")] : Rec).map Prod.fst).map
              (fun c => dictGet r c)))).worksheet? "t" =
      some { (⟨"t", 2, 2, [[Value.s "old"]]⟩ : Worksheet) with cells :=
        ((([("a", Value.s "1")] : Rec).map Prod.fst).map Value.s ::
          ([("a", Value.s "1")] :: ([] : List Rec)).map
            (fun r => (([("a", Value.s "1")] : Rec).map Prod.fst).map
              (fun c => dictGet r c))) } ∧
    ∀ (r : Rec) (k : String), ¬ k ∈ r.map Prod.fst →
      dictGet r k = Value.s "") :=
  ⟨by decide,
   upsert_sheet_full_overwrite ⟨[⟨"t", 2, 2, [[Value.s "old"]]⟩]⟩ "t"
     [("a", Value.s "1")] [] ⟨"t", 2, 2, [[Value.s "old"]]⟩ (by decide)⟩

/-- C9. A key appearing in a later record but not in the first is
silently dropped by `upsert_sheet`: the written header row (the first
cell row of the updated worksheet) does not contain it, and no record
read back from the table carries that key. -/
theorem upsert_sheet_drops_late_keys (sh sh' : Spreadsheet) (name : String)
    (r0 : Rec) (rest : List Rec) (k : String)
    (h : upsert_sheet sh name (r0 :: rest) = some sh')
    (hk : ¬ k ∈ r0.map Prod.fst) :
    (∃ w', sh'.worksheet? name = some w' ∧
      w'.cells.head? = some ((r0.map Prod.fst).map Value.s)) ∧
    ¬ Value.s k ∈ (r0.map Prod.fst).map Value.s ∧
    ∀ recs, read_sheet sh' name = some recs →
      ∀ rec ∈ recs, ¬ k ∈ rec.map Prod.fst := by
  refine ⟨?_, ?_, ?_⟩
  · rcases hw : sh.worksheet? name with _ | w
    · simp [upsert_sheet, hw] at h
    · simp only [upsert_sheet, hw] at h
      obtain rfl := Option.some.inj h
      rw [worksheet?_setCells, hw]
      exact ⟨_, rfl, rfl⟩
  · intro hmem
    obtain ⟨c, hc, hcs⟩ := List.mem_map.mp hmem
    exact hk ((Value.s.injEq c k ▸ hcs : c = k) ▸ hc)
  · intro recs hr rec hrec
    rw [upsert_then_read sh sh' name r0 rest h] at hr
    obtain rfl := Option.some.inj hr
    obtain ⟨r, _, rfl⟩ := List.mem_map.mp hrec
    rw [keys_map_pair]
    exact hk

/-- Witness for C9: the dropped key evaluated on a concrete two-record
write. -/
theorem upsert_sheet_drops_late_keys_witness :
    upsert_sheet ⟨[⟨"t", 100, 26, []⟩]⟩ "t"
        ([("a", Value.s "1")] :: [[("a", Value.s "2"), ("b", Value.s "3")]]) =
      some ⟨[⟨"t", 100, 26, [[.s "a"], [.s "1"], [.s "2"]]⟩]⟩ ∧
    ¬ "b" ∈ ([("a", Value.s "1")] : Rec).map Prod.fst ∧
    ((∃ w', (⟨[⟨"t", 100, 26, [[.s "a"], [.s "1"], [.s "2"]]⟩]⟩ :
          Spreadsheet).worksheet? "t" = some w' ∧
      w'.cells.head? =
        some ((([("a", Value.s "1")] : Rec).map Prod.fst).map Value.s)) ∧
    ¬ Value.s "b" ∈ (([("a", Value.s "1")] : Rec).map Prod.fst).map Value.s ∧
    ∀ recs, read_sheet ⟨[⟨"t", 100, 26, [[.s "a"], [.s "1"], [.s "2"]]⟩]⟩
        "t" = some recs →
      ∀ rec ∈ recs, ¬ "b" ∈ rec.map Prod.fst) :=
  ⟨by decide, by decide,
   upsert_sheet_drops_late_keys ⟨[⟨"t", 100, 26, []⟩]⟩
     ⟨[⟨"t", 100, 26, [[.s "a"], [.s "1"], [.s "2"]]⟩]⟩ "t"
     [("a", Value.s "1")] [[("a", Value.s "2"), ("b", Value.s "3")]] "b"
     (by decide) (by decide)⟩

/-! ### Claim theorems: page controllers and shell -/

/-- C5. When reading `financial_metrics` raises but reading `news`
succeeds with non-empty data, the Reports page still renders: the failed
table is displayed as the empty-data placeholder, the news data is shown,
and no exception propagates (the render is a value, not a failure). -/
theorem page_reports_partial_failure (sh : Spreadsheet) (recs : List Rec)
    (h1 : read_sheet sh "financial_metrics" = none)
    (h2 : read_sheet sh "news" = some recs)
    (h3 : dfEmpty recs = false) :
    page_reports sh =
      [.header "Reports", .subheader "Financial metrics",
       .dataframe noDataDf, .subheader "News", .dataframe recs] := by
  have h0 : dfEmpty ([] : List Rec) = true := rfl
  simp [page_reports, reportFrame, h1, h2, h3, h0]

/-- Witness for C5: a store with a populated `news` table and no
`financial_metrics` table. -/
theorem page_reports_partial_failure_witness :
    read_sheet ⟨[⟨"news", 100, 26, [[.s "h"], [.s "v"]]⟩]⟩
      "financial_metrics" = none ∧
    read_sheet ⟨[⟨"news", 100, 26, [[.s "h"], [.s "v"]]⟩]⟩ "news" =
      some [[("h", Value.s "v")]] ∧
    dfEmpty [[("h", Value.s "v")]] = false ∧
    page_reports ⟨[⟨"news", 100, 26, [[.s "h"], [.s "v"]]⟩]⟩ =
      [.header "Reports", .subheader "Financial metrics",
       .dataframe noDataDf, .subheader "News",
       .dataframe [[("h", Value.s "v")]]] :=
  ⟨by decide, by decide, by decide,
   page_reports_partial_failure ⟨[⟨"news", 100, 26, [[.s "h"], [.s "v"]]⟩]⟩
     [[("h", Value.s "v")]] (by decide) (by decide) (by decide)⟩

/-- C8. On a configured folder whose children are all filtered out (not a
child, or trashed), `list_children` returns the empty sequence — no error
— and the Library page renders the empty-library message. -/
theorem page_library_empty_folder (drive : List DriveFile) (top : String)
    (h1 : ¬ top = "")
    (h2 : ∀ f ∈ drive, (f.parents.contains top && !f.trashed) = false) :
    list_children drive top = [] ∧
    page_library drive top =
      [.header "Library (Google Drive)",
       .write "No items yet. Create a subfolder per competitor and drop files there."] := by
  have hl : list_children drive top = [] := by
    rw [list_children, List.filter_eq_nil_iff]
    intro a ha
    simpa using h2 a ha
  have hb : (top == "") = false := beq_eq_false_iff_ne.mpr h1
  refine ⟨hl, ?_⟩
  simp [page_library, hb, hl]

/-- Witness for C8: a folder whose only candidate child is trashed. -/
theorem page_library_empty_folder_witness :
    ¬ "top" = "" ∧
    (∀ f ∈ [(⟨"1", "doc", "application/pdf", "L", ["top"], true⟩ :
        DriveFile)], (f.parents.contains "top" && !f.trashed) = false) ∧
    list_children [(⟨"1", "doc", "application/pdf", "L", ["top"], true⟩ :
        DriveFile)] "top" = [] ∧
    page_library [(⟨"1", "doc", "application/pdf", "L", ["top"], true⟩ :
        DriveFile)] "top" =
      [.header "Library (Google Drive)",
       .write "No items yet. Create a subfolder per competitor and drop files there."] := by
  refine ⟨by decide, by decide, ?_⟩
  exact page_library_empty_folder _ "top" (by decide) (by decide)

/-- C6, counterexample. With the service-account credential absent, the
script run does halt (`st.stop()`), but the sidebar title, local-time
caption, timezone line and navigation radio have already been rendered:
the rendered element list is not empty, so "no partial UI rendered for
that request cycle" fails. -/
theorem main_missing_creds_renders_sidebar :
    runMain ⟨none, none, none, none⟩ "2024-01-01 00:00" "Reports" ⟨[]⟩ []
        none =
      some ([.sbTitle "Competitor Intelligence",
             .sbCaption "Local time: 2024-01-01 00:00",
             .sbWrite "Timezone: Europe/Berlin",
             .sbRadio "Navigate"
               ["Competitors", "Library", "Automations", "Reports"]],
            ⟨[]⟩, true) ∧
    ([UIEvent.sbTitle "Competitor Intelligence",
      UIEvent.sbCaption "Local time: 2024-01-01 00:00",
      UIEvent.sbWrite "Timezone: Europe/Berlin",
      UIEvent.sbRadio "Navigate"
        ["Competitors", "Library", "Automations", "Reports"]] :
      List UIEvent) ≠ [] :=
  ⟨by decide, by decide⟩

/-- C6, amended. With the service-account credential absent (missing or
empty), every run of `main` halts via `st.stop()` as soon as the
spreadsheet client is constructed: the store is untouched, no page
content is rendered, and exactly the four sidebar elements emitted before
the credential check appear. -/
theorem main_missing_creds_halts (secrets : Secrets) (now choice : String)
    (sh : Spreadsheet) (drive : List DriveFile) (form : Option CompForm)
    (h : truthy secrets.service_account_json = false) :
    runMain secrets now choice sh drive form =
      some (sidebarPrefixEvs secrets now, sh, true) := by
  simp [runMain, h]

/-- Witness for C6 (amended): the halt evaluated with empty secrets. -/
theorem main_missing_creds_halts_witness :
    truthy (Secrets.mk none none none none).service_account_json = false ∧
    runMain ⟨none, none, none, none⟩ "x" "Library" ⟨[]⟩ [] none =
      some (sidebarPrefixEvs ⟨none, none, none, none⟩ "x", ⟨[]⟩, true) :=
  ⟨rfl, main_missing_creds_halts ⟨none, none, none, none⟩ "x" "Library"
    ⟨[]⟩ [] none rfl⟩

theorem insertCols_cons (acc : List String) (c : String) (cs : List String) :
    insertCols acc (c :: cs) =
      insertCols (if c ∈ acc then acc else acc ++ [c]) cs := rfl

theorem mem_insertCols_acc (ks : List String) :
    ∀ (acc : List String) (k : String), k ∈ acc → k ∈ insertCols acc ks := by
  induction ks with
  | nil => exact fun acc k h => h
  | cons c cs ih =>
    intro acc k h
    rw [insertCols_cons]
    by_cases hc : c ∈ acc
    · rw [if_pos hc]
      exact ih acc k h
    · rw [if_neg hc]
      exact ih _ k (List.mem_append_left _ h)

theorem mem_insertCols_arg (ks : List String) :
    ∀ (acc : List String) (k : String), k ∈ ks → k ∈ insertCols acc ks := by
  induction ks with
  | nil => exact fun acc k h => absurd h (List.not_mem_nil k)
  | cons c cs ih =>
    intro acc k h
    rw [insertCols_cons]
    rcases List.mem_cons.mp h with rfl | h'
    · by_cases hc : k ∈ acc
      · rw [if_pos hc]
        exact mem_insertCols_acc cs _ k hc
      · rw [if_neg hc]
        exact mem_insertCols_acc cs _ k
          (List.mem_append_right _ (List.mem_singleton.mpr rfl))
    · exact ih _ k h'

theorem dictGet_alignRec (cols : List String) (r : Rec) (k : String)
    (hcols : k ∈ cols) (hk : k ∈ r.map Prod.fst) :
    dictGet (alignRec cols r) k = dictGet r k := by
  rw [alignRec, dictGet_map_pair cols _ k hcols, if_pos hk]

theorem concatRecords_ne_nil (rows : List Rec) (new : Rec) :
    concatRecords rows new ≠ [] := by
  by_cases h : dfEmpty rows = true
  · simp [concatRecords, h]
  · simp [concatRecords, h]

theorem concatRecords_getLast? (rows : List Rec) (new : Rec) :
    (concatRecords rows new).getLast? =
      some (if dfEmpty rows then new
        else alignRec (insertCols (dfColumns rows) (new.map Prod.fst)) new) := by
  by_cases h : dfEmpty rows = true
  · simp [concatRecords, h]
  · simp [concatRecords, h, List.getLast?_concat]

/-- C10. On every submission of the Competitors form, the record list
passed to `upsert_sheet` is the read-back table plus the newly built
record; it is never empty, its final record still carries
`active(bool) = True` and empty `created_at` / `updated_at` (the new
record's fields survive the pandas column alignment), so the empty-input
guard of `upsert_sheet` is not taken and the write-back to the
`competitors` table executes with a non-empty grid. -/
theorem page_competitors_submit_writes (sh : Spreadsheet) (f : CompForm) :
    dictGet (mkNewRec f) "active(bool)" = Value.b true ∧
    dictGet (mkNewRec f) "created_at" = Value.s "" ∧
    dictGet (mkNewRec f) "updated_at" = Value.s "" ∧
    ∃ rows lastRec data,
      read_sheet (ensure_sheets sh) "competitors" = some rows ∧
      concatRecords rows (mkNewRec f) ≠ [] ∧
      (concatRecords rows (mkNewRec f)).getLast? = some lastRec ∧
      dictGet lastRec "active(bool)" = Value.b true ∧
      dictGet lastRec "created_at" = Value.s "" ∧
      dictGet lastRec "updated_at" = Value.s "" ∧
      data ≠ [] ∧
      upsert_sheet (ensure_sheets sh) "competitors"
          (concatRecords rows (mkNewRec f)) =
        some ((ensure_sheets sh).setCells "competitors" data) ∧
      page_competitors sh (some f) =
        some ([.header "Competitors", .subheader "Database",
               .dataframe (if dfEmpty rows then noRowsDf else rows),
               .subheader "Add / Edit", .formShown "comp_form",
               .success "Saved!"],
              (ensure_sheets sh).setCells "competitors" data) := by
  refine ⟨rfl, rfl, rfl, ?_⟩
  have hmem : "competitors" ∈ (ensure_sheets sh).titles :=
    needed_in_ensure sh "competitors" (by simp [neededSheets])
  have hfind : ((ensure_sheets sh).worksheet? "competitors").isSome := by
    rw [Spreadsheet.titles] at hmem
    obtain ⟨w, hw, ht⟩ := List.mem_map.mp hmem
    rw [Spreadsheet.worksheet?]
    exact List.find?_isSome.mpr ⟨w, hw, by simp [ht]⟩
  obtain ⟨w0, hw0⟩ := Option.isSome_iff_exists.mp hfind
  set rows := get_all_records w0.cells with hrows
  have hread : read_sheet (ensure_sheets sh) "competitors" = some rows := by
    rw [read_sheet, hw0]
    rfl
  have hne := concatRecords_ne_nil rows (mkNewRec f)
  obtain ⟨r0, rest, hcons⟩ := List.exists_cons_of_ne_nil hne
  have hup : upsert_sheet (ensure_sheets sh) "competitors"
      (concatRecords rows (mkNewRec f)) =
      some ((ensure_sheets sh).setCells "competitors"
        (((r0.map Prod.fst).map Value.s) ::
          (r0 :: rest).map
            (fun r => (r0.map Prod.fst).map (fun c => dictGet r c)))) := by
    rw [hcons]
    simp only [upsert_sheet, hw0]
  have hget : ∀ k, k ∈ (mkNewRec f).map Prod.fst →
      dictGet (if dfEmpty rows then mkNewRec f
        else alignRec (insertCols (dfColumns rows) ((mkNewRec f).map Prod.fst))
          (mkNewRec f)) k = dictGet (mkNewRec f) k := by
    intro k hk
    by_cases h : dfEmpty rows = true
    · simp [h]
    · simp only [h, if_false, Bool.false_eq_true]
      exact dictGet_alignRec _ _ k (mem_insertCols_arg _ _ k hk) hk
  refine ⟨rows,
    (if dfEmpty rows then mkNewRec f
      else alignRec (insertCols (dfColumns rows) ((mkNewRec f).map Prod.fst))
        (mkNewRec f)),
    (((r0.map Prod.fst).map Value.s) ::
      (r0 :: rest).map
        (fun r => (r0.map Prod.fst).map (fun c => dictGet r c))),
    hread, hne, concatRecords_getLast? rows (mkNewRec f),
    (hget _ (by simp [mkNewRec])).trans rfl,
    (hget _ (by simp [mkNewRec])).trans rfl,
    (hget _ (by simp [mkNewRec])).trans rfl,
    by simp, hup, ?_⟩
  simp [page_competitors, hread, hup]

end CompetitorIntel
